import Mathlib

/-!
Verification development for the Fathom-to-Airtable synchronization bridge
(`new_meeting.py`).  The Python source is shallowly embedded: pure string
manipulation becomes Lean functions on `String` and `List Char`; remote HTTP
interactions become explicit response values (`Resp`) passed in as oracles,
with the list of issued requests returned as a trace.  Python truthiness,
ordered-dict field assembly, and exception handling (`try`, bare `except`)
are modelled explicitly where the control flow depends on them.
-/

set_option autoImplicit false

namespace FathomSync

/-! ## Basic character and string helpers (CPython semantics) -/

/-- Single-quote character, written via its code point. -/
def sq : Char := Char.ofNat 39

/-- Whitespace per CPython `str.strip` and regex `\s` (ASCII profile). -/
def isSpaceChar (c : Char) : Bool :=
  c = ' ' || c = Char.ofNat 9 || c = Char.ofNat 10 || c = Char.ofNat 11 ||
  c = Char.ofNat 12 || c = Char.ofNat 13

/-- Word character per regex `\w` (ASCII profile: letters, digits, underscore). -/
def isWordChar (c : Char) : Bool :=
  c.isAlphanum || c = Char.ofNat 95

/-- Uppercase ASCII letter, the regex class `[A-Z]`. -/
def isUpperAZ (c : Char) : Bool := decide (c.toNat ≥ 65) && decide (c.toNat ≤ 90)

/-- Lowercase ASCII letter, the regex class `[a-z]`. -/
def isLowerAZ (c : Char) : Bool := decide (c.toNat ≥ 97) && decide (c.toNat ≤ 122)

/-- CPython `str.strip()` on a character list: drop whitespace at both ends. -/
def pyStripL (l : List Char) : List Char :=
  ((l.dropWhile isSpaceChar).reverse.dropWhile isSpaceChar).reverse

/-- CPython `str.strip()` on strings. -/
def pyStrip (s : String) : String := String.mk (pyStripL s.data)

/-- Split at the first occurrence of `sep`: CPython `str.split(sep, 1)`.
Returns the part before the separator, and `some` tail when the separator
occurs. -/
def splitFirst (sep : Char) : List Char → List Char × Option (List Char)
  | [] => ([], none)
  | c :: rest =>
    if c = sep then ([], some rest)
    else
      let p := splitFirst sep rest
      (c :: p.1, p.2)

/-- Python `a or b` on two optional strings, where `None` and `""` are falsy. -/
def pyOr (a b : Option String) : Option String :=
  match a with
  | some s => if s = "" then b else some s
  | none => b

/-- Python truthiness of an optional string. -/
def truthyO (a : Option String) : Bool :=
  match a with
  | some s => !(s = "")
  | none => false

/-! ## Name Normalizer (`reformat_name`, new_meeting.py lines 312-328)

Python:
```
if not name: return name
name = name.strip()
if "," in name:
    parts = [part.strip() for part in name.split(",", 1)]
    if len(parts) == 2:
        return f"(parts[1]) (parts[0])"
return name
```
-/

def reformat_name : Option String → Option String
  | none => none
  | some s =>
    if s = "" then some s
    else
      let t := pyStripL s.data
      match splitFirst ',' t with
      | (before, some after) =>
          some (String.mk (pyStripL after ++ ' ' :: pyStripL before))
      | (_, none) => some (String.mk t)

/-- String-level wrapper used where the source passes a plain string. -/
def reformat_nameS (s : String) : String := (reformat_name (some s)).getD s

/-! ### Correctness lemmas for `splitFirst` -/

theorem splitFirst_eq_none_iff (sep : Char) (l : List Char) :
    (splitFirst sep l).2 = none ↔ sep ∉ l := by
  induction l with
  | nil => simp [splitFirst]
  | cons c rest ih =>
    by_cases h : c = sep
    · subst h; simp [splitFirst]
    · simp [splitFirst, h, ih, Ne.symm h]

theorem splitFirst_eq_none_fst (sep : Char) (l : List Char)
    (h : (splitFirst sep l).2 = none) : (splitFirst sep l).1 = l := by
  induction l with
  | nil => simp [splitFirst]
  | cons c rest ih =>
    by_cases hc : c = sep
    · subst hc; simp [splitFirst] at h
    · simp [splitFirst, hc] at h ⊢
      exact ih h

theorem splitFirst_of_decomp (sep : Char) (b a : List Char)
    (hb : sep ∉ b) : splitFirst sep (b ++ sep :: a) = (b, some a) := by
  induction b with
  | nil => simp [splitFirst]
  | cons c rest ih =>
    have hc : c ≠ sep := by
      intro h; exact hb (by simp [h])
    have hrest : sep ∉ rest := fun h => hb (List.mem_cons_of_mem _ h)
    simp [splitFirst, hc, ih hrest]

/-! ## Participant lookup formula escaping (new_meeting.py lines 349-354)

Python:
```
escaped_name = participant_name.replace("(q)", "(q)(q)")
formula = "(lbrace)Name(rbrace) = (q)" + escaped_name + "(q)"
```
where `(q)` is the single-quote character. -/

/-- Double every single-quote character: CPython
`participant_name.replace(sq, sq sq)` from the source. -/
def escapeL : List Char → List Char
  | [] => []
  | c :: rest => if c = sq then sq :: sq :: escapeL rest else c :: escapeL rest

/-- Literal prefix of the lookup formula, the text before the quoted value. -/
def formulaPrefix : List Char := ('\x7b' :: "Name".data) ++ ('\x7d' :: " = ".data)

/-- Lookup formula built by `find_or_create_participant`:
`(lbrace)Name(rbrace) = (q)<escaped name>(q)`. -/
def lookup_formula (name : String) : String :=
  String.mk (formulaPrefix ++ sq :: (escapeL name.data ++ [sq]))

/-- Modelled from the spec: the remote store scanning of the inside of a
single-quoted formula value (the behaviour of the exact-match query engine is
not part of this repository).  A doubled single-quote denotes one literal
quote character; a lone single-quote closes the value.  Returns the decoded
value and the characters after the closing quote; `none` when the value is
unterminated. -/
def readQV : List Char → Option (List Char × List Char)
  | [] => none
  | c :: rest =>
    if c = sq then
      match rest with
      | [] => some ([], [])
      | c2 :: rest2 =>
        if c2 = sq then (readQV rest2).map (fun p => (sq :: p.1, p.2))
        else some ([], rest)
    else (readQV rest).map (fun p => (c :: p.1, p.2))

/-- Modelled from the spec: a quoted value literal — an opening single-quote
followed by the value body and a closing quote. -/
def readQuotedValue : List Char → Option (List Char × List Char)
  | [] => none
  | c :: rest => if c = sq then readQV rest else none

/-- Modelled from the spec: the value the remote store extracts from the
formula built by the source — strip the fixed `(lbrace)Name(rbrace) = `
prefix, expect an opening quote, decode the quoted value, and require the
formula to end right after the closing quote. -/
def formulaQueryValue (formula : String) : Option String :=
  if formulaPrefix.isPrefixOf formula.data then
    match formula.data.drop formulaPrefix.length with
    | [] => none
    | c :: rest =>
      if c = sq then
        match readQuotedValue (c :: rest) with
        | some (v, []) => some (String.mk v)
        | _ => none
      else none
  else none

theorem readQV_escape (l : List Char) :
    readQV (escapeL l ++ [sq]) = some (l, []) := by
  induction l with
  | nil => simp [readQV, escapeL]
  | cons c rest ih =>
    by_cases hc : c = sq
    · subst hc
      simp [escapeL, readQV, ih]
    · simp only [escapeL, hc, if_false, List.cons_append]
      rw [readQV.eq_def]
      simp [hc, ih]

theorem readQuotedValue_escape (l : List Char) :
    readQuotedValue (sq :: (escapeL l ++ [sq])) = some (l, []) := by
  simp [readQuotedValue, readQV_escape]

/-! ## Assignee Extractor (`extract_assignee`, new_meeting.py lines 514-550)

Five `re.search` patterns tried in source order.  Each pattern is embedded as
a matcher tried at one start position; `searchAll` tries every start
position left to right, which is `re.search` leftmost-match semantics.  The
only repetitions in the source patterns are over character classes that are
pairwise disjoint from the following atoms, so greedy maximal runs are exact;
the optional groups are embedded as ordered alternatives with the full
continuation, which is exactly backtracking. -/

/-- Try matcher `m` at every start position, leftmost first (`re.search`). -/
def searchAll (m : List Char → Option (List Char)) : List Char → Option (List Char)
  | [] => m []
  | c :: rest =>
    match m (c :: rest) with
    | some g => some g
    | none => searchAll m rest

/-- Pattern 1 `@(\w+(?:\s+\w+)?)` tried at one position. -/
def p1At : List Char → Option (List Char)
  | [] => none
  | c :: rest =>
    if c = '@' then
      let w1 := rest.takeWhile isWordChar
      let r1 := rest.dropWhile isWordChar
      if w1 = [] then none
      else
        let spc := r1.takeWhile isSpaceChar
        let r2 := r1.dropWhile isSpaceChar
        let w2 := r2.takeWhile isWordChar
        if spc ≠ [] ∧ w2 ≠ [] then some (w1 ++ spc ++ w2) else some w1
    else none

/-- Pattern 2 `\[([^\]]+)\]` tried at one position. -/
def p2At : List Char → Option (List Char)
  | [] => none
  | c :: rest =>
    if c = '[' then
      let inner := rest.takeWhile (fun x => !(x = ']'))
      let r1 := rest.dropWhile (fun x => !(x = ']'))
      match inner, r1 with
      | _ :: _, ']' :: _ => some inner
      | _, _ => none
    else none

/-- One capitalized token `[A-Z][a-z]+`: returns the token and the rest. -/
def nameTok : List Char → Option (List Char × List Char)
  | [] => none
  | c :: rest =>
    if isUpperAZ c then
      let ls := rest.takeWhile isLowerAZ
      if ls = [] then none else some (c :: ls, rest.dropWhile isLowerAZ)
    else none

/-- Group `([A-Z][a-z]+(?:\s+[A-Z][a-z]+)?)` with continuation `k` on the
remainder: the greedy two-token alternative is tried first, exactly as the
regex engine backtracks. -/
def nameGroup (k : List Char → Bool) (l : List Char) : Option (List Char) :=
  match nameTok l with
  | none => none
  | some (t1, r1) =>
    let spc := r1.takeWhile isSpaceChar
    let r2 := r1.dropWhile isSpaceChar
    let two :=
      if spc = [] then none
      else
        match nameTok r2 with
        | some (t2, r3) => if k r3 then some (t1 ++ spc ++ t2) else none
        | none => none
    match two with
    | some g => some g
    | none => if k r1 then some t1 else none

/-- Tail of pattern 3 after `[Aa]ssigned\s+`: embeds `:?\s*(NAME)`. -/
def p3Colon (l : List Char) : Option (List Char) :=
  let viaColon :=
    match l with
    | ':' :: r2 => nameGroup (fun _ => true) (r2.dropWhile isSpaceChar)
    | _ => none
  match viaColon with
  | some g => some g
  | none => nameGroup (fun _ => true) (l.dropWhile isSpaceChar)

/-- Tail of pattern 3 after `[Aa]ssigned\s+`: embeds `(?:to\s+)?:?\s*(NAME)`. -/
def p3Tail (l : List Char) : Option (List Char) :=
  let viaTo :=
    match l with
    | 't' :: 'o' :: r2 =>
      let spc := r2.takeWhile isSpaceChar
      if spc = [] then none else p3Colon (r2.dropWhile isSpaceChar)
    | _ => none
  match viaTo with
  | some g => some g
  | none => p3Colon l

/-- Pattern 3 `[Aa]ssigned\s+(?:to\s+)?:?\s*([A-Z][a-z]+(?:\s+[A-Z][a-z]+)?)`
tried at one position. -/
def p3At : List Char → Option (List Char)
  | c :: 's' :: 's' :: 'i' :: 'g' :: 'n' :: 'e' :: 'd' :: rest =>
    if c = 'A' ∨ c = 'a' then
      let spc := rest.takeWhile isSpaceChar
      if spc = [] then none else p3Tail (rest.dropWhile isSpaceChar)
    else none
  | _ => none

/-- Pattern 4 `^([A-Z][a-z]+(?:\s+[A-Z][a-z]+)?)\s*:`, anchored. -/
def p4Anchored (l : List Char) : Option (List Char) :=
  nameGroup
    (fun r =>
      match r.dropWhile isSpaceChar with
      | ':' :: _ => true
      | _ => false) l

/-- Literal verb alternative followed by `\s+`: one branch of
`(?:to|will|should|needs to)\s+`. -/
def verbAlt (v : List Char) (r : List Char) : Bool :=
  v.isPrefixOf r && ((r.drop v.length).takeWhile isSpaceChar ≠ [])

/-- Continuation of pattern 5 after the name group:
`\s+(?:to|will|should|needs to)\s+`. -/
def p5K (r : List Char) : Bool :=
  let spc := r.takeWhile isSpaceChar
  if spc = [] then false
  else
    let r2 := r.dropWhile isSpaceChar
    verbAlt "to".data r2 || verbAlt "will".data r2 ||
    verbAlt "should".data r2 || verbAlt "needs to".data r2

/-- Pattern 5 `^([A-Z][a-z]+(?:\s+[A-Z][a-z]+)?)\s+(?:to|will|should|needs to)\s+`,
anchored. -/
def p5Anchored (l : List Char) : Option (List Char) :=
  nameGroup p5K l

/-- The Assignee Extractor (`extract_assignee`): the five patterns in source
order, first match wins, the captured group stripped; `none` when no pattern
matches. -/
def extract_assignee (s : String) : Option String :=
  let l := s.data
  match searchAll p1At l with
  | some g => some (String.mk (pyStripL g))
  | none =>
  match searchAll p2At l with
  | some g => some (String.mk (pyStripL g))
  | none =>
  match searchAll p3At l with
  | some g => some (String.mk (pyStripL g))
  | none =>
  match p4Anchored l with
  | some g => some (String.mk (pyStripL g))
  | none =>
  match p5Anchored l with
  | some g => some (String.mk (pyStripL g))
  | none => none

/-! ## Timestamp parsing and duration (new_meeting.py lines 242-250)

Python:
```
duration = None
if meeting.get("recording_start_time") and meeting.get("recording_end_time"):
    try:
        start = datetime.fromisoformat(... .replace("Z", "+00:00"))
        end = datetime.fromisoformat(... .replace("Z", "+00:00"))
        duration_seconds = (end - start).total_seconds()
        duration = int(duration_seconds)
    except:
        pass
```
`datetime.fromisoformat` is CPython standard library; it is embedded below
for the isoformat shapes `YYYY-MM-DD[<sep>HH[:MM[:SS[.fff|.ffffff]]][±HH:MM[:SS[.fff|.ffffff]]]]`
(the CPython 3.10 grammar), with numeric fields taken as digit-only.
Subtracting an offset-aware from an offset-naive datetime raises `TypeError`,
which the bare `except` above turns into an absent duration.  `total_seconds`
is modelled exactly (float rounding ignored); `int()` truncates toward zero,
which is `Int.div` on the exact microsecond difference. -/

/-- Value of a decimal digit, `none` for any other character. -/
def digitVal (c : Char) : Option Nat :=
  if c.isDigit then some (c.toNat - 48) else none

/-- Two mandatory decimal digits. -/
def p2dig : List Char → Option (Nat × List Char)
  | a :: b :: r =>
    match digitVal a, digitVal b with
    | some x, some y => some (10 * x + y, r)
    | _, _ => none
  | _ => none

/-- Four mandatory decimal digits. -/
def p4dig (l : List Char) : Option (Nat × List Char) :=
  match p2dig l with
  | some (hi, r) =>
    match p2dig r with
    | some (lo, r2) => some (100 * hi + lo, r2)
    | none => none
  | none => none

/-- Numeric value of an all-digit list, `none` if any character is not a
digit. -/
def digitsVal : List Char → Option Nat
  | [] => some 0
  | c :: rest =>
    match digitVal c, digitsVal rest with
    | some d, some v => some (d * 10 ^ rest.length + v)
    | _, _ => none

/-- Gregorian leap year. -/
def isLeap (y : Nat) : Bool := (y % 4 = 0 && !(y % 100 = 0)) || y % 400 = 0

/-- Days in a month (1-12) of year `y`. -/
def daysInMonth (y m : Nat) : Nat :=
  if m = 2 then (if isLeap y then 29 else 28)
  else if m = 4 ∨ m = 6 ∨ m = 9 ∨ m = 11 then 30
  else 31

/-- Cumulative days before month `m` (1-12) in year `y`. -/
def daysBeforeMonth (y m : Nat) : Nat :=
  let base :=
    match m with
    | 1 => 0 | 2 => 31 | 3 => 59 | 4 => 90 | 5 => 120 | 6 => 151
    | 7 => 181 | 8 => 212 | 9 => 243 | 10 => 273 | 11 => 304 | _ => 334
  if isLeap y ∧ m > 2 then base + 1 else base

/-- Days before January 1 of year `y` counting from year 1 (proleptic
Gregorian, as CPython `datetime.toordinal`). -/
def daysBeforeYear (y : Nat) : Nat :=
  let n := y - 1
  365 * n + n / 4 - n / 100 + n / 400

/-- Complete days from the calendar origin to the given date. -/
def ordinalDays (y m d : Nat) : Nat :=
  daysBeforeYear y + daysBeforeMonth y m + (d - 1)

/-- An embedded CPython `datetime`: microseconds on the naive timeline plus
an optional UTC offset in microseconds (`some` = offset-aware). -/
structure PyDateTime where
  micros : Int
  offset : Option Int
deriving DecidableEq, Repr

/-- The date part `YYYY-MM-DD`. -/
def pDate (l : List Char) : Option (Nat × Nat × Nat × List Char) :=
  match p4dig l with
  | some (y, r1) =>
    match r1 with
    | '-' :: r2 =>
      match p2dig r2 with
      | some (m, r3) =>
        match r3 with
        | '-' :: r4 =>
          match p2dig r4 with
          | some (d, r5) => some (y, m, d, r5)
          | none => none
        | _ => none
      | none => none
    | _ => none
  | none => none

/-- Fractional seconds after the dot: exactly 3 or 6 digits, in microseconds
(the CPython 3.10 rule). -/
def pFrac (l : List Char) : Option Nat :=
  match digitsVal l with
  | some v =>
    if l.length = 3 then some (v * 1000)
    else if l.length = 6 then some v
    else none
  | none => none

/-- The time components `HH[:MM[:SS[.frac]]]` — CPython
`_parse_hh_mm_ss_ff`, which consumes the whole list. -/
def pHMSF (l : List Char) : Option (Nat × Nat × Nat × Nat) :=
  match p2dig l with
  | none => none
  | some (h, r1) =>
    match r1 with
    | [] => some (h, 0, 0, 0)
    | ':' :: r2 =>
      match p2dig r2 with
      | none => none
      | some (mi, r3) =>
        match r3 with
        | [] => some (h, mi, 0, 0)
        | ':' :: r4 =>
          match p2dig r4 with
          | none => none
          | some (se, r5) =>
            match r5 with
            | [] => some (h, mi, se, 0)
            | '.' :: r6 =>
              match pFrac r6 with
              | some us => some (h, mi, se, us)
              | none => none
            | _ => none
        | _ => none
    | _ => none

/-- Split the time string at the timezone sign, CPython style: the text
before the first `-` (or, failing that, the first `+`) is the local time;
the sign and the rest are the offset. -/
def splitTz (l : List Char) : List Char × Option (Bool × List Char) :=
  match l.findIdx? (fun c => c = '-') with
  | some i => (l.take i, some (true, l.drop (i + 1)))
  | none =>
    match l.findIdx? (fun c => c = '+') with
    | some i => (l.take i, some (false, l.drop (i + 1)))
    | none => (l, none)

/-- The time-of-day with optional offset.  The offset text must be 5, 8 or 15
characters and parse with the same component grammar; the resulting offset
must be strictly less than 24 hours in magnitude (CPython `timezone`
validation). -/
def pTime (tstr : List Char) : Option (Nat × Nat × Nat × Nat × Option Int) :=
  let parts := splitTz tstr
  match pHMSF parts.1 with
  | none => none
  | some (h, mi, se, us) =>
    match parts.2 with
    | none => some (h, mi, se, us, none)
    | some (neg, tzChars) =>
      if tzChars.length = 5 ∨ tzChars.length = 8 ∨ tzChars.length = 15 then
        match pHMSF tzChars with
        | none => none
        | some (th, tm, ts, tus) =>
          let offUs : Int := ((th * 3600 + tm * 60 + ts) * 1000000 + tus : Nat)
          let offUs := if neg then -offUs else offUs
          if offUs.natAbs < 86400000000 then some (h, mi, se, us, some offUs)
          else none
      else none

/-- Embedded `datetime.fromisoformat` (CPython 3.10 grammar; digit-strict
numeric fields). -/
def pyFromIso (s : String) : Option PyDateTime :=
  match pDate s.data with
  | none => none
  | some (y, m, d, rest) =>
    if 1 ≤ y ∧ 1 ≤ m ∧ m ≤ 12 ∧ 1 ≤ d ∧ d ≤ daysInMonth y m then
      match rest with
      | [] => some ⟨(ordinalDays y m d : Nat) * 86400000000, none⟩
      | _ :: timeChars =>
        match pTime timeChars with
        | none => none
        | some (h, mi, se, us, off) =>
          if h ≤ 23 ∧ mi ≤ 59 ∧ se ≤ 59 then
            some ⟨((ordinalDays y m d * 86400 + h * 3600 + mi * 60 + se) *
                    1000000 + us : Nat), off⟩
          else none
    else none

/-- CPython `str.replace("Z", "+00:00")`: every occurrence replaced. -/
def replaceZ : List Char → List Char
  | [] => []
  | c :: r =>
    if c = 'Z' then '+' :: '0' :: '0' :: ':' :: '0' :: '0' :: replaceZ r
    else c :: replaceZ r

/-- Subtraction of two embedded datetimes in microseconds.  Mixing
offset-aware and offset-naive operands raises `TypeError` in CPython,
modelled as `none`. -/
def pySubMicros (a b : PyDateTime) : Option Int :=
  match a.offset, b.offset with
  | none, none => some (a.micros - b.micros)
  | some oa, some ob => some ((a.micros - oa) - (b.micros - ob))
  | _, _ => none

/-- Duration derivation slice of `fetch_fathom_call_data`: the value bound to
`duration` given the two raw timestamp fields. -/
def fetch_duration (st et : Option String) : Option Int :=
  match st, et with
  | some s, some e =>
    if s = "" ∨ e = "" then none
    else
      match pyFromIso (String.mk (replaceZ s.data)),
            pyFromIso (String.mk (replaceZ e.data)) with
      | some ds, some de =>
        match pySubMicros de ds with
        | some m => some (Int.tdiv m 1000000)
        | none => none
      | _, _ => none
  | _, _ => none

/-! ## URL derivation (new_meeting.py lines 252-256)

Python:
```
recording_url = meeting.get("url") or meeting.get("share_url")
embed_url = None
if recording_url:
    embed_url = recording_url.replace("/share/", "/embed/")
```
-/

/-- CPython `str.replace` with a non-empty pattern: every non-overlapping
occurrence replaced, scanning left to right. -/
def replaceSubF (pat rep : List Char) : Nat → List Char → List Char
  | 0, l => l
  | _ + 1, [] => []
  | fuel + 1, c :: rest =>
    if pat.isPrefixOf (c :: rest) then
      rep ++ replaceSubF pat rep fuel ((c :: rest).drop pat.length)
    else c :: replaceSubF pat rep fuel rest

/-- CPython `str.replace` with a non-empty pattern, via a fuel bounded by the
input length (each step strictly shortens the input, so the fuel never runs
out). -/
def replaceSub (pat rep l : List Char) : List Char :=
  if pat = [] then l else replaceSubF pat rep l.length l

/-- Embed URL derivation slice of `fetch_fathom_call_data`: the shareable
URL is `url or share_url`; the embed URL substitutes `/share/` with
`/embed/` on it when it is truthy. -/
def derive_recording_url (url share_url : Option String) : Option String :=
  pyOr url share_url

/-- The `embed_url` value computed by the source from the truthy shareable
URL. -/
def derive_embed_url (recording_url : Option String) : Option String :=
  match recording_url with
  | some s =>
    if s = "" then none
    else some (String.mk (replaceSub "/share/".data "/embed/".data s.data))
  | none => none

/-! ## Remote interaction model

Every remote call is represented by the response the remote side would give:
`Resp.exn` is a transport failure (a `requests` exception), `Resp.ok status
body` a completed HTTP exchange, where `body = none` means the payload does
not parse as the expected JSON (so `.json()` or a key access raises).  Each
embedded function returns, along with its result, the list of requests it
issued, so that frame claims (no remote call issued) are statable. -/

inductive Resp (α : Type) where
  | exn : Resp α
  | ok (status : Nat) (body : Option α) : Resp α

/-- A destination-table field as reported by the metadata endpoint. -/
structure TField where
  name : String
  ftype : String
deriving DecidableEq, Repr

/-- A destination table as reported by the metadata endpoint. -/
structure Table where
  name : String
  fields : List TField
deriving DecidableEq, Repr

/-- Requests issued against the remote services by the embedded functions. -/
inductive Req where
  | getRecords (formula : String)
  | getSchema
  | postCreate (fieldName name : String)
deriving DecidableEq, Repr

/-! ## Schema Adapter (`get_linked_record_fields`, new_meeting.py lines 286-310) -/

/-- The three cross-reference field types of the source. -/
def isLinkedType (t : String) : Bool :=
  t == "multipleRecordLinks" || t == "singleCollaborator" || t == "multipleCollaborators"

/-- Embedded `get_linked_record_fields`: the names of the linked-record
fields of the first table named `tableName`, and `[]` (the empty set) on
transport failure, non-success status, malformed body, or missing table. -/
def get_linked_record_fields (tableName : String) (resp : Resp (List Table)) :
    List String :=
  match resp with
  | .exn => []
  | .ok st body =>
    if st = 200 then
      match body with
      | none => []
      | some tables =>
        match tables.find? (fun t => t.name == tableName) with
        | some t => (t.fields.filter (fun f => isLinkedType f.ftype)).map TField.name
        | none => []
    else []

/-! ## Participant Reconciler (`find_or_create_participant`,
new_meeting.py lines 330-400)

The lookup body is `records` (absent key = `none`), a list of record
identifiers each possibly missing (a missing `id` raises `KeyError`, caught
by the enclosing handler).  The create body is the `id` of the created
record, possibly missing (`.get` returns `None`). -/

/-- The three response values one `find_or_create_participant` call can
consume. -/
structure FocpWorld where
  lookup : Resp (Option (List (Option String)))
  schema : Resp (List Table)
  create : Resp (Option String)

/-- Name-field selection in the create path: the first `singleLineText` or
`email` field of the participants table, defaulting to `Name`. -/
def selectNameField (tbl : String) (tables : List Table) : String :=
  match tables.find? (fun t => t.name == tbl) with
  | some t =>
    match t.fields.find? (fun f => f.ftype == "singleLineText" || f.ftype == "email") with
    | some f => f.name
    | none => "Name"
  | none => "Name"

/-- The create POST at the end of the create path. -/
def focpPost (nm fieldName : String) (createResp : Resp (Option String))
    (pre : List Req) : Option String × List Req :=
  let tr := pre ++ [Req.postCreate fieldName nm]
  match createResp with
  | .exn => (none, tr)
  | .ok st body =>
    if st = 200 then
      match body with
      | none => (none, tr)
      | some idOpt => (idOpt, tr)
    else (none, tr)

/-- The create path: fetch the schema, choose the name field (default `Name`
when the schema fetch does not succeed), then create the record. -/
def focpCreate (tbl nm : String) (schemaResp : Resp (List Table))
    (createResp : Resp (Option String)) (pre : List Req) :
    Option String × List Req :=
  let tr1 := pre ++ [Req.getSchema]
  match schemaResp with
  | .exn => (none, tr1)
  | .ok st body =>
    if st = 200 then
      match body with
      | none => (none, tr1)
      | some tables => focpPost nm (selectNameField tbl tables) createResp tr1
    else focpPost nm "Name" createResp tr1

/-- Embedded `find_or_create_participant`.  A falsy name returns `none`
without any request; a successful lookup with a non-empty `records` list
returns the first identifier; otherwise the create path runs; every raised
exception inside the `try` is caught and becomes `none`. -/
def find_or_create_participant (tbl : String) (w : FocpWorld)
    (name : Option String) : Option String × List Req :=
  match name with
  | none => (none, [])
  | some nm =>
    if nm = "" then (none, [])
    else
      let req1 := Req.getRecords (lookup_formula nm)
      match w.lookup with
      | .exn => (none, [req1])
      | .ok st body =>
        if st = 200 then
          match body with
          | none => (none, [req1])
          | some records =>
            match records with
            | some (r :: _) =>
              match r with
              | some rid => (some rid, [req1])
              | none => (none, [req1])
            | _ => focpCreate tbl nm w.schema w.create [req1]
        else focpCreate tbl nm w.schema w.create [req1]

/-! ## Destination record assembly -/

/-- A value sent into a destination field: a string, an integer, or an array
of strings (record identifiers or literal names — the wire format does not
distinguish them). -/
inductive FieldVal where
  | s (v : String)
  | n (v : Int)
  | list (v : List String)
deriving DecidableEq, Repr

/-- One optionally-present field of the outgoing record. -/
def optF (b : Bool) (kv : String × FieldVal) : List (String × FieldVal) :=
  if b then [kv] else []

/-- The normalized call data consumed by the upload step (the `call_info`
dictionary built by `fetch_fathom_call_data`). -/
structure CallData where
  call_id : Option String
  recording_id : Option String
  title : Option String
  start_time : Option String
  end_time : Option String
  duration : Option Int
  recording_url : Option String
  embed_url : Option String
  summary : Option String
  transcript_url : Option String
  participants : List String

/-- Reconciliation loop of `upload_meeting_to_airtable` (lines 424-432): one
`find_or_create_participant` call per reformatted name, collecting the
identifiers of the successful calls in order; `i` numbers the calls so the
oracle can answer each one independently. -/
def collectIds (tbl : String) (ws : Nat → FocpWorld) :
    List String → Nat → List String × List Req
  | [], _ => ([], [])
  | nm :: rest, i =>
    let r := find_or_create_participant tbl (ws i) (some nm)
    let tail := collectIds tbl ws rest (i + 1)
    ((match r.1 with
      | some rid => rid :: tail.1
      | none => tail.1), r.2 ++ tail.2)

/-- Embedded `upload_meeting_to_airtable` (new_meeting.py lines 402-511) up
to the assembled outgoing record: returns the `fields` mapping of the POST
body, plus the trace of people-store requests issued by participant
reconciliation. -/
def upload_meeting_to_airtable (metaResp : Resp (List Table))
    (ws : Nat → FocpWorld) (meetingsTbl peopleTbl : String) (cd : CallData) :
    List (String × FieldVal) × List Req :=
  let linked := get_linked_record_fields meetingsTbl metaResp
  let names := cd.participants.map reformat_nameS
  let recon :=
    if linked.contains "Participants" && !names.isEmpty then
      collectIds peopleTbl ws names 0
    else ([], [])
  let callId := pyOr cd.call_id cd.recording_id
  let fields :=
    optF (truthyO cd.title && !linked.contains "Title")
      ("Title", .s (cd.title.getD "")) ++
    optF (truthyO cd.recording_url && !linked.contains "Recording URL")
      ("Recording URL", .s (cd.recording_url.getD "")) ++
    optF (truthyO cd.embed_url && !linked.contains "Embed URL")
      ("Embed URL", .s (cd.embed_url.getD "")) ++
    optF (truthyO cd.summary && !linked.contains "Summary")
      ("Summary", .s (cd.summary.getD "")) ++
    optF (truthyO cd.start_time && !linked.contains "Start Time")
      ("Start Time", .s (cd.start_time.getD "")) ++
    (match cd.duration with
     | some d => optF (!linked.contains "Duration") ("Duration", .n d)
     | none => []) ++
    (if linked.contains "Participants" then
       optF (!recon.1.isEmpty) ("Participants", .list recon.1)
     else
       optF (!names.isEmpty) ("Participants", .list names)) ++
    optF (truthyO callId && !linked.contains "Fathom Call ID")
      ("Fathom Call ID", .s (callId.getD "")) ++
    optF (truthyO cd.transcript_url && !linked.contains "Transcript URL")
      ("Transcript URL", .s (cd.transcript_url.getD ""))
  (fields, recon.2)

/-! ## Action-Item Normalizer (`create_action_items`,
new_meeting.py lines 553-649) -/

/-- A raw action-item assignee: a plain string or an object with an optional
name. -/
inductive RawAssignee where
  | s (v : String)
  | obj (name : Option String)

/-- A raw action item: a plain string, or an object with optional text,
description and assignee. -/
inductive RawItem where
  | str (v : String)
  | obj (text description : Option String) (assignee : Option RawAssignee)

/-- Python `item.get("text", "") or item.get("description", "")` for object
items, `str(item)` for string items (absent and null keys collapse to the
falsy empty string). -/
def itemTextOf : RawItem → String
  | .str v => v
  | .obj t d _ =>
    let a := t.getD ""
    if a = "" then d.getD "" else a

/-- The explicitly structured assignee of an item, before any extraction. -/
def itemAssigneeOf : RawItem → Option String
  | .str _ => none
  | .obj _ _ a =>
    match a with
    | none => none
    | some (.s v) => some v
    | some (.obj n) => n

/-- Field assembly for one action item (lines 605-625): description when
truthy, the fixed initial status, the meeting link when a meeting identifier
exists, and the assignee — the identifier array when reconciliation
succeeded, else the literal name only for a non-linked field. -/
def build_action_item_fields (linked : List String) (mid : Option String)
    (text : String) (assignee : Option String) (rid : Option String) :
    List (String × FieldVal) :=
  (if text = "" then [] else [("Description", FieldVal.s text)]) ++
  [("Status", FieldVal.s "To Do")] ++
  (match mid with
   | some m => if m = "" then [] else [("Meeting", FieldVal.list [m])]
   | none => []) ++
  (match rid with
   | some r => [("Assigned To", FieldVal.list [r])]
   | none =>
     if truthyO assignee && !linked.contains "Assigned To" then
       [("Assigned To", FieldVal.s (assignee.getD ""))]
     else [])

/-- Events of one `create_action_items` run: people-store requests from
assignee reconciliation, and one POST per written item with its fields and
outcome. -/
inductive AiEv where
  | recon (r : Req)
  | post (descr : String) (fields : List (String × FieldVal)) (ok : Bool)

/-- The item loop of `create_action_items`.  `wi` counts reconciliation
calls, `pi` counts POST attempts; the oracles answer by call number.  Items
with falsy text are skipped before any remote interaction; a failed POST
(non-success status or transport error, `raise_for_status`) is swallowed
and the loop continues. -/
def caiGo (linked : List String) (peopleTbl : String) (ws : Nat → FocpWorld)
    (posts : Nat → Bool) (mid : Option String) :
    List RawItem → Nat → Nat → Nat × List AiEv
  | [], _, _ => (0, [])
  | item :: rest, wi, pi =>
    let text := itemTextOf item
    if text = "" then caiGo linked peopleTbl ws posts mid rest wi pi
    else
      let a0 := itemAssigneeOf item
      let a1 := if truthyO a0 then a0 else extract_assignee text
      let a2 := if truthyO a1 then reformat_name a1 else a1
      let rcall :=
        if truthyO a2 then some (find_or_create_participant peopleTbl (ws wi) a2)
        else none
      let wi2 := if truthyO a2 then wi + 1 else wi
      let rid := match rcall with | some p => p.1 | none => none
      let reconEvs := (match rcall with | some p => p.2 | none => []).map AiEv.recon
      let fields := build_action_item_fields linked mid text a2 rid
      let ok := posts pi
      let tail := caiGo linked peopleTbl ws posts mid rest wi2 (pi + 1)
      ((if ok then 1 else 0) + tail.1, reconEvs ++ AiEv.post text fields ok :: tail.2)

/-- Embedded `create_action_items`: an empty item list returns 0 before any
remote call; otherwise the linked fields of the action-items table are
fetched and the items processed in source order.  (The `if not fields`
guard of the source is unreachable: `Status` is always present.)  Returns
the count of successfully created records and the event trace. -/
def create_action_items (metaResp : Resp (List Table)) (ws : Nat → FocpWorld)
    (posts : Nat → Bool) (actionItemsTbl peopleTbl : String)
    (items : List RawItem) (mid : Option String) : Nat × List AiEv :=
  if items.isEmpty then (0, [])
  else
    caiGo (get_linked_record_fields actionItemsTbl metaResp) peopleTbl ws posts
      mid items 0 0

/-! ## Claim theorems -/

/-- Claim C4: the Name Normalizer returns a null or empty input unchanged; a
non-empty input is trimmed; when the trimmed string contains a comma it is
split on the first comma into exactly two trimmed parts reordered as
`<part after comma> <part before comma>`; without a comma the trimmed string
is returned unchanged; `normalize "Doe, Jane" = "Jane Doe"` and
`normalize "Jane Doe" = "Jane Doe"`. -/
theorem C4_reformat_name :
    reformat_name none = none ∧
    reformat_name (some "") = some "" ∧
    (∀ s : String, s ≠ "" → ',' ∉ pyStripL s.data →
      reformat_name (some s) = some (String.mk (pyStripL s.data))) ∧
    (∀ (s : String) (b a : List Char), s ≠ "" →
      pyStripL s.data = b ++ ',' :: a → ',' ∉ b →
      reformat_name (some s) = some (String.mk (pyStripL a ++ ' ' :: pyStripL b))) ∧
    reformat_name (some "Doe, Jane") = some "Jane Doe" ∧
    reformat_name (some "Jane Doe") = some "Jane Doe" := by
  refine ⟨rfl, rfl, ?_, ?_, by decide, by decide⟩
  · intro s hs hnc
    have h2 : (splitFirst ',' (pyStripL s.data)).2 = none :=
      (splitFirst_eq_none_iff ',' (pyStripL s.data)).mpr hnc
    have h1 : (splitFirst ',' (pyStripL s.data)).1 = pyStripL s.data :=
      splitFirst_eq_none_fst ',' (pyStripL s.data) h2
    have hsp : splitFirst ',' (pyStripL s.data) = (pyStripL s.data, none) := by
      rw [Prod.ext_iff]; exact ⟨h1, h2⟩
    simp [reformat_name, hs, hsp]
  · intro s b a hs hdec hnb
    have hsp : splitFirst ',' (pyStripL s.data) = (b, some a) := by
      rw [hdec]; exact splitFirst_of_decomp ',' b a hnb
    simp [reformat_name, hs, hsp]

/-- Witness for C4: the split-and-reorder case at the concrete input
`"Doe, Jane"`. -/
theorem C4_reformat_name_witness :
    reformat_name (some "Doe, Jane") = some "Jane Doe" := by
  have h := C4_reformat_name.2.2.2.1 "Doe, Jane" "Doe".data " Jane".data
    (by decide) (by decide) (by decide)
  exact h.trans (by decide)

/-- Claim C5: the lookup formula doubles every embedded single-quote of the name
inside the quoted value, so the remote query parser (modelled from the spec)
reads back exactly the original name with nothing left after the closing
quote — a quote inside the name can not terminate the quoted query value,
and the query value equals the original string. -/
theorem C5_formula_escaping :
    (∀ name : String,
      (lookup_formula name).data =
        formulaPrefix ++ sq :: (escapeL name.data ++ [sq])) ∧
    (∀ name : String, formulaQueryValue (lookup_formula name) = some name) := by
  refine ⟨fun _ => rfl, fun name => ?_⟩
  have hpre : formulaPrefix.isPrefixOf
      (formulaPrefix ++ sq :: (escapeL name.data ++ [sq])) = true :=
    List.isPrefixOf_iff_prefix.mpr (List.prefix_append _ _)
  have hdrop : (formulaPrefix ++ sq :: (escapeL name.data ++ [sq])).drop
      formulaPrefix.length = sq :: (escapeL name.data ++ [sq]) :=
    List.drop_left _ _
  simp only [formulaQueryValue, lookup_formula, hpre, hdrop, if_true]
  simp [readQuotedValue_escape]

/-- Counterexample for C2: the at-mention pattern `@(\w+(?:\s+\w+)?)` captures
greedily up to two word tokens, so the extractor returns `"Jane please"`
for `"@Jane please review"`, not `"Jane"` as the claim states. -/
theorem C2_counterexample :
    extract_assignee "@Jane please review" = some "Jane please" ∧
    ¬ extract_assignee "@Jane please review" = some "Jane" := by
  constructor
  · decide
  · decide

/-- Claim C2 as amended: the five patterns apply in strict source order with the
first match winning, but the at-mention pattern greedily captures one or two
word tokens, so `extract "@Jane please review" = "Jane please"`; the other
listed examples hold as stated, and the priority order is witnessed on
inputs where several patterns match. -/
theorem C2_extract_assignee :
    extract_assignee "@Jane please review" = some "Jane please" ∧
    extract_assignee "[Bob Smith] to follow up" = some "Bob Smith" ∧
    extract_assignee "Assigned to Carol Jones" = some "Carol Jones" ∧
    extract_assignee "Dave: send the report" = some "Dave" ∧
    extract_assignee "Erin will send the invite" = some "Erin" ∧
    extract_assignee "no assignee info here" = none ∧
    extract_assignee "@Al [Bob Cee] x" = some "Al" ∧
    extract_assignee "See [Eve Fox] assigned to Gil" = some "Eve Fox" ∧
    extract_assignee "Ann: assigned to Carl" = some "Carl" := by
  refine ⟨by decide, by decide, by decide, by decide, by decide, by decide,
    by decide, by decide, by decide⟩

/-- Counterexample for C3: both timestamps parse under the source parsing (the
first offset-aware via the trailing `Z`, the second offset-naive), yet the
duration is absent — subtracting a naive from an aware datetime raises
`TypeError`, swallowed by the bare `except` — so "present iff both parse"
is false on the code. -/
theorem C3_counterexample :
    (pyFromIso (String.mk (replaceZ "2024-01-01T10:00:00Z".data))).isSome = true ∧
    (pyFromIso (String.mk (replaceZ "2024-01-01T10:30:00".data))).isSome = true ∧
    fetch_duration (some "2024-01-01T10:00:00Z") (some "2024-01-01T10:30:00") = none := by
  refine ⟨by decide, by decide, by decide⟩

theorem pySubMicros_isSome (a b : PyDateTime) :
    (pySubMicros a b).isSome = true ↔ a.offset.isSome = b.offset.isSome := by
  cases ha : a.offset <;> cases hb : b.offset <;> simp [pySubMicros, ha, hb]

/-- Claim C3 as amended: the duration is present iff both timestamps are present,
truthy, parse under the source parsing (trailing `Z` accepted as UTC
offset), and agree on offset-awareness; when present it is the exact
microsecond difference end minus start divided by 10^6 truncating toward
zero (which is the floor for non-negative differences); no parse failure
ever escapes, and the example pair thirty minutes apart yields 1800. -/
theorem C3_fetch_duration :
    (∀ e, fetch_duration none e = none) ∧
    (∀ s, fetch_duration s none = none) ∧
    (∀ s e : String, (fetch_duration (some s) (some e)).isSome = true ↔
      (¬ s = "" ∧ ¬ e = "" ∧ ∃ ds de : PyDateTime,
        pyFromIso (String.mk (replaceZ s.data)) = some ds ∧
        pyFromIso (String.mk (replaceZ e.data)) = some de ∧
        ds.offset.isSome = de.offset.isSome)) ∧
    (∀ (s e : String) (ds de : PyDateTime) (m : Int), ¬ s = "" → ¬ e = "" →
      pyFromIso (String.mk (replaceZ s.data)) = some ds →
      pyFromIso (String.mk (replaceZ e.data)) = some de →
      pySubMicros de ds = some m →
      fetch_duration (some s) (some e) = some (Int.tdiv m 1000000)) ∧
    fetch_duration (some "2024-01-01T10:00:00Z") (some "2024-01-01T10:30:00Z") =
      some 1800 := by
  refine ⟨fun e => rfl, fun s => by cases s <;> rfl, ?_, ?_, by decide⟩
  · intro s e
    by_cases hs : s = ""
    · simp [fetch_duration, hs]
    · by_cases he : e = ""
      · simp [fetch_duration, hs, he]
      · cases hds : pyFromIso (String.mk (replaceZ s.data)) with
        | none => simp [fetch_duration, hs, he, hds]
        | some ds =>
          cases hde : pyFromIso (String.mk (replaceZ e.data)) with
          | none => simp [fetch_duration, hs, he, hds, hde]
          | some de =>
            cases hm : pySubMicros de ds with
            | none =>
              have hne : ¬ de.offset.isSome = ds.offset.isSome := by
                intro h
                have hsome : (pySubMicros de ds).isSome = true :=
                  (pySubMicros_isSome de ds).mpr h
                rw [hm] at hsome
                simp at hsome
              simp only [fetch_duration, hs, he, hds, hde, hm]
              simp
              intro h
              exact hne h.symm
            | some m =>
              have hsame := (pySubMicros_isSome de ds).mp (by simp [hm])
              simp [fetch_duration, hs, he, hds, hde, hm, hsame.symm]
  · intro s e ds de m hs he hds hde hm
    simp [fetch_duration, hs, he, hds, hde, hm]

/-- Witness for C3: the value clause applied at the concrete pair thirty
minutes apart, both offset-aware via the trailing `Z`. -/
theorem C3_fetch_duration_witness :
    fetch_duration (some "2024-01-01T10:00:00Z") (some "2024-01-01T10:30:00Z") =
      some 1800 := by
  have h := C3_fetch_duration.2.2.2.1 "2024-01-01T10:00:00Z" "2024-01-01T10:30:00Z"
    ⟨63839700000000000, some 0⟩ ⟨63839701800000000, some 0⟩ 1800000000
    (by decide) (by decide) (by decide) (by decide) (by decide)
  exact h.trans (by decide)

theorem replaceSubF_of_not_infix (pat rep : List Char) :
    ∀ (fuel : Nat) (l : List Char), ¬ pat <:+: l →
      replaceSubF pat rep fuel l = l := by
  intro fuel
  induction fuel with
  | zero => intro l _; rfl
  | succ n ih =>
    intro l h
    cases l with
    | nil => rfl
    | cons c rest =>
      have hpre : pat.isPrefixOf (c :: rest) = false := by
        cases hb : pat.isPrefixOf (c :: rest)
        · rfl
        · exact absurd (List.isPrefixOf_iff_prefix.mp hb).isInfix h
      have hrest : ¬ pat <:+: rest := fun hi =>
        h (hi.trans (List.suffix_cons c rest).isInfix)
      simp [replaceSubF, hpre, ih rest hrest]

theorem replaceSub_of_not_infix (pat rep l : List Char) (hpat : ¬ pat = [])
    (h : ¬ pat <:+: l) : replaceSub pat rep l = l := by
  simp [replaceSub, hpat, replaceSubF_of_not_infix pat rep l.length l h]

/-- Claim C9: the embed URL is derived from the truthy shareable URL
(`url or share_url`) by substituting the substring `/share/` with
`/embed/`; an absent shareable URL yields an absent embed URL; no other URL
form is recognized — a truthy URL not containing `/share/` passes through
unchanged; and the concrete share link maps to the embed link. -/
theorem C9_embed_url :
    (∀ u su : Option String, derive_recording_url u su = pyOr u su) ∧
    derive_embed_url none = none ∧
    derive_embed_url (some "") = none ∧
    (∀ s : String, ¬ s = "" →
      derive_embed_url (some s) =
        some (String.mk (replaceSub "/share/".data "/embed/".data s.data))) ∧
    (∀ s : String, ¬ s = "" → ¬ "/share/".data <:+: s.data →
      derive_embed_url (some s) = some s) ∧
    derive_embed_url (some "https://fathom.video/share/abc") =
      some "https://fathom.video/embed/abc" := by
  refine ⟨fun u su => rfl, rfl, by decide, ?_, ?_, by decide⟩
  · intro s hs
    simp [derive_embed_url, hs]
  · intro s hs hni
    simp [derive_embed_url, hs,
      replaceSub_of_not_infix "/share/".data "/embed/".data s.data (by decide) hni]

/-- Witness for C9: the derivation clause applied at the concrete share URL. -/
theorem C9_embed_url_witness :
    derive_embed_url (some "https://fathom.video/share/abc") =
      some "https://fathom.video/embed/abc" := by
  have h := C9_embed_url.2.2.2.1 "https://fathom.video/share/abc" (by decide)
  exact h.trans (by decide)

/-- Counterexample for C6: a non-success status (500) on the lookup does not
make `find_or_create_participant` return absent — the code falls through to
the create path, which here succeeds and returns the new identifier. -/
theorem C6_counterexample :
    (find_or_create_participant "People"
      ⟨Resp.ok 500 none,
       Resp.ok 200 (some [⟨"People", [⟨"Full Name", "singleLineText"⟩]⟩]),
       Resp.ok 200 (some (some "rec123"))⟩ (some "Jane Doe")).1 = some "rec123" ∧
    ¬ (find_or_create_participant "People"
      ⟨Resp.ok 500 none,
       Resp.ok 200 (some [⟨"People", [⟨"Full Name", "singleLineText"⟩]⟩]),
       Resp.ok 200 (some (some "rec123"))⟩ (some "Jane Doe")).1 = none := by
  constructor
  · decide
  · decide

/-- Claim C6 as amended: an empty or null name returns absent with no remote call;
a transport failure or a malformed success-response body at any of the three
steps returns absent, as does a non-success status on the create step; but a
non-success status on the lookup or on the schema fetch does not return
absent — the lookup falls through to creation and the schema fetch falls
back to the default `Name` field, so the call may still return an
identifier; the function never raises. -/
theorem C6_find_or_create_failures :
    (∀ tbl w, find_or_create_participant tbl w none = (none, [])) ∧
    (∀ tbl w, find_or_create_participant tbl w (some "") = (none, [])) ∧
    (∀ tbl sr cr n, ¬ n = "" →
      (find_or_create_participant tbl ⟨Resp.exn, sr, cr⟩ (some n)).1 = none) ∧
    (∀ tbl sr cr n, ¬ n = "" →
      (find_or_create_participant tbl ⟨Resp.ok 200 none, sr, cr⟩ (some n)).1 = none) ∧
    (∀ tbl cr n, ¬ n = "" →
      (find_or_create_participant tbl ⟨Resp.ok 404 none, Resp.exn, cr⟩ (some n)).1 = none) ∧
    (∀ tbl cr n, ¬ n = "" →
      (find_or_create_participant tbl
        ⟨Resp.ok 404 none, Resp.ok 200 none, cr⟩ (some n)).1 = none) ∧
    (∀ tbl sr n, ¬ n = "" →
      (find_or_create_participant tbl ⟨Resp.ok 404 none, sr, Resp.exn⟩ (some n)).1 = none) ∧
    (∀ tbl sr n, ¬ n = "" →
      (find_or_create_participant tbl
        ⟨Resp.ok 404 none, sr, Resp.ok 200 none⟩ (some n)).1 = none) ∧
    (∀ tbl sr n st b, ¬ n = "" → ¬ st = 200 →
      (find_or_create_participant tbl
        ⟨Resp.ok 404 none, sr, Resp.ok st b⟩ (some n)).1 = none) := by
  refine ⟨fun tbl w => rfl, fun tbl w => rfl, ?_, ?_, ?_, ?_, ?_, ?_, ?_⟩
  · intro tbl sr cr n hn
    simp [find_or_create_participant, hn]
  · intro tbl sr cr n hn
    simp [find_or_create_participant, hn]
  · intro tbl cr n hn
    simp [find_or_create_participant, hn, focpCreate]
  · intro tbl cr n hn
    simp [find_or_create_participant, hn, focpCreate]
  · intro tbl sr n hn
    cases sr with
    | exn => simp [find_or_create_participant, hn, focpCreate]
    | ok st b =>
      by_cases hst : st = 200
      · subst hst
        cases b with
        | none => simp [find_or_create_participant, hn, focpCreate]
        | some tables => simp [find_or_create_participant, hn, focpCreate, focpPost]
      · simp [find_or_create_participant, hn, focpCreate, focpPost, hst]
  · intro tbl sr n hn
    cases sr with
    | exn => simp [find_or_create_participant, hn, focpCreate]
    | ok st b =>
      by_cases hst : st = 200
      · subst hst
        cases b with
        | none => simp [find_or_create_participant, hn, focpCreate]
        | some tables => simp [find_or_create_participant, hn, focpCreate, focpPost]
      · simp [find_or_create_participant, hn, focpCreate, focpPost, hst]
  · intro tbl sr n st b hn hst
    cases sr with
    | exn => simp [find_or_create_participant, hn, focpCreate]
    | ok st2 b2 =>
      by_cases hst2 : st2 = 200
      · subst hst2
        cases b2 with
        | none => simp [find_or_create_participant, hn, focpCreate]
        | some tables =>
          simp [find_or_create_participant, hn, focpCreate, focpPost, hst]
      · simp [find_or_create_participant, hn, focpCreate, focpPost, hst, hst2]

/-- Witness for C6: the create-step failure clause at a concrete name and
status. -/
theorem C6_find_or_create_failures_witness :
    (find_or_create_participant "People"
      ⟨Resp.ok 404 none, Resp.ok 503 none, Resp.ok 422 none⟩
      (some "Jane Doe")).1 = none :=
  C6_find_or_create_failures.2.2.2.2.2.2.2.2 "People" (Resp.ok 503 none)
    "Jane Doe" 422 none (by decide) (by decide)

/-- Claim C8: the function `get_linked_record_fields` returns exactly the names of the fields
of the located table whose declared type is `multipleRecordLinks`,
`singleCollaborator` or `multipleCollaborators`; every other field is
absent; and a transport error, a non-success status, a malformed body, or a
missing table yields the empty set rather than a failure. -/
theorem C8_get_linked_record_fields :
    (∀ t : String, get_linked_record_fields t Resp.exn = []) ∧
    (∀ (t : String) (st : Nat) (b : Option (List Table)), ¬ st = 200 →
      get_linked_record_fields t (Resp.ok st b) = []) ∧
    (∀ t : String, get_linked_record_fields t (Resp.ok 200 none) = []) ∧
    (∀ (t : String) (tables : List Table),
      tables.find? (fun x => x.name == t) = none →
      get_linked_record_fields t (Resp.ok 200 (some tables)) = []) ∧
    (∀ (t : String) (tables : List Table) (tb : Table),
      tables.find? (fun x => x.name == t) = some tb →
      ∀ f : String, f ∈ get_linked_record_fields t (Resp.ok 200 (some tables)) ↔
        ∃ fd : TField, fd ∈ tb.fields ∧ fd.name = f ∧ isLinkedType fd.ftype = true) := by
  refine ⟨fun t => rfl, ?_, fun t => rfl, ?_, ?_⟩
  · intro t st b hst
    simp [get_linked_record_fields, hst]
  · intro t tables hf
    simp [get_linked_record_fields, hf]
  · intro t tables tb hf f
    simp only [get_linked_record_fields, if_true, hf]
    simp [List.mem_map, List.mem_filter]
    constructor
    · rintro ⟨fd, ⟨hmem, hty⟩, hname⟩
      exact ⟨fd, hmem, hname, hty⟩
    · rintro ⟨fd, hmem, hname, hty⟩
      exact ⟨fd, ⟨hmem, hty⟩, hname⟩

/-- Witness for C8: the membership clause at a concrete schema — the
cross-reference field is in the set, evaluated concretely. -/
theorem C8_get_linked_record_fields_witness :
    "Participants" ∈ get_linked_record_fields "Meetings"
      (Resp.ok 200 (some [⟨"Meetings",
        [⟨"Participants", "multipleRecordLinks"⟩, ⟨"Title", "singleLineText"⟩]⟩])) :=
  (C8_get_linked_record_fields.2.2.2.2 "Meetings"
    [⟨"Meetings", [⟨"Participants", "multipleRecordLinks"⟩, ⟨"Title", "singleLineText"⟩]⟩]
    ⟨"Meetings", [⟨"Participants", "multipleRecordLinks"⟩, ⟨"Title", "singleLineText"⟩]⟩
    (by decide) "Participants").mpr
    ⟨⟨"Participants", "multipleRecordLinks"⟩, by decide, rfl, by decide⟩

/-! ### Trace projections for `create_action_items` -/

/-- The outcomes of the POST attempts of a run, in order. -/
def postOks : List AiEv → List Bool :=
  List.filterMap (fun e =>
    match e with
    | .post _ _ ok => some ok
    | _ => none)

/-- The descriptions of the POST attempts of a run, in order. -/
def postTexts : List AiEv → List String :=
  List.filterMap (fun e =>
    match e with
    | .post t _ _ => some t
    | _ => none)

theorem postOks_append (a b : List AiEv) :
    postOks (a ++ b) = postOks a ++ postOks b := by
  simp [postOks]

theorem postTexts_append (a b : List AiEv) :
    postTexts (a ++ b) = postTexts a ++ postTexts b := by
  simp [postTexts]

theorem postOks_recon_map (l : List Req) :
    postOks (l.map AiEv.recon) = [] := by
  induction l with
  | nil => rfl
  | cons r rest ih => simp [postOks, ih]

theorem postTexts_recon_map (l : List Req) :
    postTexts (l.map AiEv.recon) = [] := by
  induction l with
  | nil => rfl
  | cons r rest ih => simp [postTexts, ih]

theorem postOks_post_cons (t : String) (f : List (String × FieldVal)) (ok : Bool)
    (evs : List AiEv) : postOks (AiEv.post t f ok :: evs) = ok :: postOks evs := by
  simp [postOks]

theorem postTexts_post_cons (t : String) (f : List (String × FieldVal)) (ok : Bool)
    (evs : List AiEv) : postTexts (AiEv.post t f ok :: evs) = t :: postTexts evs := by
  simp [postTexts]

theorem caiGo_postTexts (linked : List String) (peopleTbl : String)
    (ws : Nat → FocpWorld) (posts : Nat → Bool) (mid : Option String) :
    ∀ (items : List RawItem) (wi pi : Nat),
      postTexts (caiGo linked peopleTbl ws posts mid items wi pi).2 =
        (items.map itemTextOf).filter (fun t => !(t == "")) := by
  intro items
  induction items with
  | nil => intro wi pi; rfl
  | cons item rest ih =>
    intro wi pi
    by_cases ht : itemTextOf item = ""
    · simp [caiGo, ht, ih]
    · simp only [caiGo, ht, if_false]
      rw [postTexts_append, postTexts_recon_map, List.nil_append,
        postTexts_post_cons, ih]
      simp [ht]

theorem caiGo_postOks (linked : List String) (peopleTbl : String)
    (ws : Nat → FocpWorld) (posts : Nat → Bool) (mid : Option String) :
    ∀ (items : List RawItem) (wi pi : Nat),
      postOks (caiGo linked peopleTbl ws posts mid items wi pi).2 =
        (List.range ((items.map itemTextOf).filter (fun t => !(t == ""))).length).map
          (fun j => posts (pi + j)) := by
  intro items
  induction items with
  | nil => intro wi pi; rfl
  | cons item rest ih =>
    intro wi pi
    by_cases ht : itemTextOf item = ""
    · simp [caiGo, ht, ih]
    · simp only [caiGo, ht, if_false]
      rw [postOks_append, postOks_recon_map, List.nil_append,
        postOks_post_cons, ih]
      have hlen : ((List.map itemTextOf (item :: rest)).filter
          (fun t => !(t == ""))).length =
          ((List.map itemTextOf rest).filter (fun t => !(t == ""))).length + 1 := by
        simp [ht]
      rw [hlen, List.range_succ_eq_map]
      simp only [List.map_cons, List.map_map, Nat.add_zero]
      congr 1
      apply List.map_congr_left
      intro a _
      simp only [Function.comp_apply, Nat.succ_eq_add_one]
      congr 1
      omega

theorem caiGo_count (linked : List String) (peopleTbl : String)
    (ws : Nat → FocpWorld) (posts : Nat → Bool) (mid : Option String) :
    ∀ (items : List RawItem) (wi pi : Nat),
      (caiGo linked peopleTbl ws posts mid items wi pi).1 =
        (postOks (caiGo linked peopleTbl ws posts mid items wi pi).2).count true := by
  intro items
  induction items with
  | nil => intro wi pi; rfl
  | cons item rest ih =>
    intro wi pi
    by_cases ht : itemTextOf item = ""
    · simp [caiGo, ht, ih]
    · simp only [caiGo, ht, if_false]
      rw [postOks_append, postOks_recon_map, List.nil_append,
        postOks_post_cons, ih]
      cases hok : posts pi <;> simp [List.count_cons] <;> omega

/-- Claim C7: the function `create_action_items` walks the items in source order — the POSTed
descriptions are exactly the non-empty item texts in order; an item with
empty text is neither written nor counted; one POST attempt is made per
kept item whatever the outcome of the previous ones (a failure is swallowed
and the loop continues); and the returned value is the number of successful
POSTs, illustrated by a two-item run whose second write fails returning 1. -/
theorem C7_create_action_items :
    (∀ metaResp ws posts aTbl pTbl items mid,
      (create_action_items metaResp ws posts aTbl pTbl items mid).1 =
        (postOks (create_action_items metaResp ws posts aTbl pTbl items mid).2).count
          true) ∧
    (∀ metaResp ws posts aTbl pTbl items mid,
      postTexts (create_action_items metaResp ws posts aTbl pTbl items mid).2 =
        (items.map itemTextOf).filter (fun t => !(t == ""))) ∧
    (∀ metaResp ws posts aTbl pTbl items mid,
      postOks (create_action_items metaResp ws posts aTbl pTbl items mid).2 =
        (List.range
          ((items.map itemTextOf).filter (fun t => !(t == ""))).length).map posts) ∧
    (create_action_items Resp.exn (fun _ => ⟨Resp.exn, Resp.exn, Resp.exn⟩)
      (fun i => i == 0) "Action Items" "People"
      [RawItem.obj (some "Write spec") none (some (RawAssignee.obj (some "Bob"))),
       RawItem.str "Carol to file the report"] (some "recM")).1 = 1 := by
  refine ⟨?_, ?_, ?_, by decide⟩
  · intro metaResp ws posts aTbl pTbl items mid
    cases items with
    | nil => rfl
    | cons item rest =>
      simp only [create_action_items, List.isEmpty_cons, if_false]
      exact caiGo_count _ _ _ _ _ _ 0 0
  · intro metaResp ws posts aTbl pTbl items mid
    cases items with
    | nil => rfl
    | cons item rest =>
      simp only [create_action_items, List.isEmpty_cons, if_false]
      exact caiGo_postTexts _ _ _ _ _ _ 0 0
  · intro metaResp ws posts aTbl pTbl items mid
    cases items with
    | nil => rfl
    | cons item rest =>
      have h : postOks (create_action_items metaResp ws posts aTbl pTbl
          (item :: rest) mid).2 = postOks (caiGo
            (get_linked_record_fields aTbl metaResp) pTbl ws posts mid
            (item :: rest) 0 0).2 := rfl
      rw [h, caiGo_postOks]
      apply List.map_congr_left
      intro a _
      simp

/-! ### Reconciliation loop characterization -/

theorem collectIds_fst (tbl : String) (ws : Nat → FocpWorld) :
    ∀ (names : List String) (i : Nat),
      (collectIds tbl ws names i).1 =
        (List.enumFrom i names).filterMap
          (fun p => (find_or_create_participant tbl (ws p.1) (some p.2)).1) := by
  intro names
  induction names with
  | nil => intro i; rfl
  | cons nm rest ih =>
    intro i
    cases hr : (find_or_create_participant tbl (ws i) (some nm)).1 with
    | none => simp [collectIds, List.enumFrom, hr, ih]
    | some rid => simp [collectIds, List.enumFrom, hr, ih]

theorem collectIds_snd (tbl : String) (ws : Nat → FocpWorld) :
    ∀ (names : List String) (i : Nat),
      (collectIds tbl ws names i).2 =
        ((List.enumFrom i names).map
          (fun p => (find_or_create_participant tbl (ws p.1) (some p.2)).2)).flatten := by
  intro names
  induction names with
  | nil => intro i; rfl
  | cons nm rest ih =>
    intro i
    simp [collectIds, List.enumFrom, ih]

/-! ### Lookup helpers over the assembled field list -/

theorem lookup_optF_skip (k k2 : String) (v : FieldVal) (b : Bool)
    (l : List (String × FieldVal)) (h : (k == k2) = false) :
    List.lookup k (optF b (k2, v) ++ l) = List.lookup k l := by
  cases b <;> simp [optF, List.lookup, h]

theorem lookup_optF_self (k : String) (v : FieldVal) (b : Bool)
    (l : List (String × FieldVal)) :
    List.lookup k (optF b (k, v) ++ l) =
      (if b then some v else List.lookup k l) := by
  cases b <;> simp [optF, List.lookup]

theorem lookup_optF_last (k k2 : String) (v : FieldVal) (b : Bool)
    (h : (k == k2) = false) : List.lookup k (optF b (k2, v)) = none := by
  cases b <;> simp [optF, List.lookup, h]

theorem upload_snd_trace (metaResp : Resp (List Table)) (ws : Nat → FocpWorld)
    (mt pt : String) (cd : CallData) :
    (upload_meeting_to_airtable metaResp ws mt pt cd).2 =
      (if (get_linked_record_fields mt metaResp).contains "Participants" &&
          !(cd.participants.map reformat_nameS).isEmpty then
        (collectIds pt ws (cd.participants.map reformat_nameS) 0).2
      else []) := by
  simp only [upload_meeting_to_airtable]
  cases h : (get_linked_record_fields mt metaResp).contains "Participants" &&
      !(cd.participants.map reformat_nameS).isEmpty
  · simp [h]
  · simp [h]

theorem upload_participants_linked (metaResp : Resp (List Table))
    (ws : Nat → FocpWorld) (mt pt : String) (cd : CallData)
    (h : (get_linked_record_fields mt metaResp).contains "Participants" = true) :
    List.lookup "Participants" (upload_meeting_to_airtable metaResp ws mt pt cd).1 =
      (if ((collectIds pt ws (cd.participants.map reformat_nameS) 0).1).isEmpty
       then none
       else some (FieldVal.list
         (collectIds pt ws (cd.participants.map reformat_nameS) 0).1)) := by
  simp only [upload_meeting_to_airtable, List.append_assoc]
  rw [lookup_optF_skip _ _ _ _ _ (by decide)]
  rw [lookup_optF_skip _ _ _ _ _ (by decide)]
  rw [lookup_optF_skip _ _ _ _ _ (by decide)]
  rw [lookup_optF_skip _ _ _ _ _ (by decide)]
  rw [lookup_optF_skip _ _ _ _ _ (by decide)]
  simp only [h, if_true, Bool.true_and]
  by_cases hn : (cd.participants.map reformat_nameS).isEmpty = true
  · have hnil : cd.participants.map reformat_nameS = [] := by
      simpa [List.isEmpty_iff] using hn
    rw [hnil]
    cases hd : cd.duration with
    | some d =>
      rw [lookup_optF_skip _ _ _ _ _ (by decide)]
      simp only [List.isEmpty_nil, Bool.not_true, if_false]
      rw [lookup_optF_self]
      simp only [collectIds, List.isEmpty_nil, Bool.not_true, if_false]
      rw [lookup_optF_skip _ _ _ _ _ (by decide),
        lookup_optF_last _ _ _ _ (by decide)]
      simp [collectIds]
    | none =>
      simp only [List.nil_append]
      simp only [List.isEmpty_nil, Bool.not_true, if_false]
      rw [lookup_optF_self]
      simp only [collectIds, List.isEmpty_nil, Bool.not_true, if_false]
      rw [lookup_optF_skip _ _ _ _ _ (by decide),
        lookup_optF_last _ _ _ _ (by decide)]
      simp [collectIds]
  · simp only [Bool.not_eq_true] at hn
    rw [hn]
    simp only [Bool.not_false, if_true]
    cases hd : cd.duration with
    | some d =>
      rw [lookup_optF_skip _ _ _ _ _ (by decide)]
      rw [lookup_optF_self]
      by_cases hi :
          ((collectIds pt ws (cd.participants.map reformat_nameS) 0).1).isEmpty = true
      · simp only [hi, Bool.not_true, if_false, if_true]
        rw [lookup_optF_skip _ _ _ _ _ (by decide),
          lookup_optF_last _ _ _ _ (by decide)]
        simp
      · simp only [Bool.not_eq_true] at hi
        simp only [hi, Bool.not_false, if_true, if_false]
        simp
    | none =>
      simp only [List.nil_append]
      rw [lookup_optF_self]
      by_cases hi :
          ((collectIds pt ws (cd.participants.map reformat_nameS) 0).1).isEmpty = true
      · simp only [hi, Bool.not_true, if_false, if_true]
        rw [lookup_optF_skip _ _ _ _ _ (by decide),
          lookup_optF_last _ _ _ _ (by decide)]
        simp
      · simp only [Bool.not_eq_true] at hi
        simp only [hi, Bool.not_false, if_true, if_false]
        simp

theorem upload_participants_unlinked (metaResp : Resp (List Table))
    (ws : Nat → FocpWorld) (mt pt : String) (cd : CallData)
    (h : (get_linked_record_fields mt metaResp).contains "Participants" = false) :
    List.lookup "Participants" (upload_meeting_to_airtable metaResp ws mt pt cd).1 =
      (if (cd.participants.map reformat_nameS).isEmpty then none
       else some (FieldVal.list (cd.participants.map reformat_nameS))) := by
  simp only [upload_meeting_to_airtable, List.append_assoc]
  rw [lookup_optF_skip _ _ _ _ _ (by decide)]
  rw [lookup_optF_skip _ _ _ _ _ (by decide)]
  rw [lookup_optF_skip _ _ _ _ _ (by decide)]
  rw [lookup_optF_skip _ _ _ _ _ (by decide)]
  rw [lookup_optF_skip _ _ _ _ _ (by decide)]
  simp only [h, Bool.false_and, Bool.false_eq_true, if_false]
  cases hd : cd.duration with
  | some d =>
    rw [lookup_optF_skip _ _ _ _ _ (by decide)]
    rw [lookup_optF_self]
    by_cases hn : (cd.participants.map reformat_nameS).isEmpty = true
    · simp only [hn, Bool.not_true, if_false, if_true]
      rw [lookup_optF_skip _ _ _ _ _ (by decide),
        lookup_optF_last _ _ _ _ (by decide)]
      simp
    · simp only [Bool.not_eq_true] at hn
      simp only [hn, Bool.not_false, if_true, if_false]
      simp
  | none =>
    simp only [List.nil_append]
    rw [lookup_optF_self]
    by_cases hn : (cd.participants.map reformat_nameS).isEmpty = true
    · simp only [hn, Bool.not_true, if_false, if_true]
      rw [lookup_optF_skip _ _ _ _ _ (by decide),
        lookup_optF_last _ _ _ _ (by decide)]
      simp
    · simp only [Bool.not_eq_true] at hn
      simp only [hn, Bool.not_false, if_true, if_false]
      simp

/-- Claim C1: a cross-reference destination field never receives a literal name.
For the action-item record: when reconciliation succeeded the `Assigned To`
field is the identifier array; when the field is a linked field and
reconciliation failed the field is omitted; the literal name is sent only
when the field is not linked.  For the meeting record: when `Participants`
is a linked field its value, when present, is exactly the identifiers of the
successfully reconciled participants in order (failed names omitted, so the
list may be shorter than the input). -/
theorem C1_crossref_never_literal :
    (∀ (linked : List String) (mid : Option String) (text : String)
      (a : Option String) (r : String),
      List.lookup "Assigned To" (build_action_item_fields linked mid text a (some r)) =
        some (FieldVal.list [r])) ∧
    (∀ (linked : List String) (mid : Option String) (text : String)
      (a : Option String), linked.contains "Assigned To" = true →
      List.lookup "Assigned To" (build_action_item_fields linked mid text a none) =
        none) ∧
    (∀ (linked : List String) (mid : Option String) (text : String)
      (a : Option String), truthyO a = true → linked.contains "Assigned To" = false →
      List.lookup "Assigned To" (build_action_item_fields linked mid text a none) =
        some (FieldVal.s (a.getD ""))) ∧
    (∀ (metaResp : Resp (List Table)) (ws : Nat → FocpWorld) (mt pt : String)
      (cd : CallData),
      (get_linked_record_fields mt metaResp).contains "Participants" = true →
      List.lookup "Participants" (upload_meeting_to_airtable metaResp ws mt pt cd).1 =
        (if ((collectIds pt ws (cd.participants.map reformat_nameS) 0).1).isEmpty
         then none
         else some (FieldVal.list
           (collectIds pt ws (cd.participants.map reformat_nameS) 0).1))) ∧
    (∀ (tbl : String) (ws : Nat → FocpWorld) (names : List String) (i : Nat),
      (collectIds tbl ws names i).1 =
        (List.enumFrom i names).filterMap
          (fun p => (find_or_create_participant tbl (ws p.1) (some p.2)).1)) := by
  refine ⟨?_, ?_, ?_, ?_, ?_⟩
  · intro linked mid text a r
    by_cases ht : text = ""
    · cases mid with
      | none => simp [build_action_item_fields, List.lookup, optF, ht]
      | some m =>
        by_cases hm : m = "" <;>
          simp [build_action_item_fields, List.lookup, optF, ht, hm]
    · cases mid with
      | none => simp [build_action_item_fields, List.lookup, optF, ht]
      | some m =>
        by_cases hm : m = "" <;>
          simp [build_action_item_fields, List.lookup, optF, ht, hm]
  · intro linked mid text a h
    replace h : "Assigned To" ∈ linked := by simpa using h
    by_cases ht : text = ""
    · cases mid with
      | none => simp [build_action_item_fields, List.lookup, optF, ht, h]
      | some m =>
        by_cases hm : m = "" <;>
          simp [build_action_item_fields, List.lookup, optF, ht, hm, h]
    · cases mid with
      | none => simp [build_action_item_fields, List.lookup, optF, ht, h]
      | some m =>
        by_cases hm : m = "" <;>
          simp [build_action_item_fields, List.lookup, optF, ht, hm, h]
  · intro linked mid text a ha h
    replace h : "Assigned To" ∉ linked := by simpa using h
    by_cases ht : text = ""
    · cases mid with
      | none => simp [build_action_item_fields, List.lookup, optF, ht, ha, h]
      | some m =>
        by_cases hm : m = "" <;>
          simp [build_action_item_fields, List.lookup, optF, ht, hm, ha, h]
    · cases mid with
      | none => simp [build_action_item_fields, List.lookup, optF, ht, ha, h]
      | some m =>
        by_cases hm : m = "" <;>
          simp [build_action_item_fields, List.lookup, optF, ht, hm, ha, h]
  · intro metaResp ws mt pt cd h
    exact upload_participants_linked metaResp ws mt pt cd h
  · intro tbl ws names i
    exact collectIds_fst tbl ws names i

/-- Witness for C1: with `Assigned To` linked and reconciliation failed, the
field is omitted from the assembled record. -/
theorem C1_crossref_never_literal_witness :
    List.lookup "Assigned To"
      (build_action_item_fields ["Assigned To"] (some "recM") "Do the thing"
        (some "Bob") none) = none :=
  C1_crossref_never_literal.2.1 ["Assigned To"] (some "recM") "Do the thing"
    (some "Bob") (by decide)

/-- Claim C10: participant reconciliation runs only when the meetings-table
`Participants` field is classified cross-reference and the name list is
non-empty — otherwise no people-store request is issued — and when it is not
so classified the reformatted names are sent as an array of literal strings
(or the field is omitted when there are no names); when it does run, the
requests are exactly the concatenated find-or-create traces, one call per
name in order. -/
theorem C10_participants_frame :
    (∀ (metaResp : Resp (List Table)) (ws : Nat → FocpWorld) (mt pt : String)
      (cd : CallData),
      (get_linked_record_fields mt metaResp).contains "Participants" = false →
      (upload_meeting_to_airtable metaResp ws mt pt cd).2 = [] ∧
      List.lookup "Participants" (upload_meeting_to_airtable metaResp ws mt pt cd).1 =
        (if (cd.participants.map reformat_nameS).isEmpty then none
         else some (FieldVal.list (cd.participants.map reformat_nameS)))) ∧
    (∀ (metaResp : Resp (List Table)) (ws : Nat → FocpWorld) (mt pt : String)
      (cd : CallData), (cd.participants.map reformat_nameS).isEmpty = true →
      (upload_meeting_to_airtable metaResp ws mt pt cd).2 = []) ∧
    (∀ (metaResp : Resp (List Table)) (ws : Nat → FocpWorld) (mt pt : String)
      (cd : CallData),
      (get_linked_record_fields mt metaResp).contains "Participants" = true →
      (cd.participants.map reformat_nameS).isEmpty = false →
      (upload_meeting_to_airtable metaResp ws mt pt cd).2 =
        (collectIds pt ws (cd.participants.map reformat_nameS) 0).2) ∧
    (∀ (tbl : String) (ws : Nat → FocpWorld) (names : List String) (i : Nat),
      (collectIds tbl ws names i).2 =
        ((List.enumFrom i names).map
          (fun p => (find_or_create_participant tbl (ws p.1) (some p.2)).2)).flatten) := by
  refine ⟨?_, ?_, ?_, ?_⟩
  · intro metaResp ws mt pt cd h
    constructor
    · rw [upload_snd_trace]
      have h2 : "Participants" ∉ get_linked_record_fields mt metaResp := by
        simpa using h
      simp [h2]
    · exact upload_participants_unlinked metaResp ws mt pt cd h
  · intro metaResp ws mt pt cd hn
    rw [upload_snd_trace]
    simp [hn]
  · intro metaResp ws mt pt cd h hn
    rw [upload_snd_trace]
    have h2 : "Participants" ∈ get_linked_record_fields mt metaResp := by
      simpa using h
    have hn2 : ¬ cd.participants = [] := by
      intro hx
      rw [hx] at hn
      simp at hn
    simp [h2, hn2]
  · intro tbl ws names i
    exact collectIds_snd tbl ws names i

/-- Witness for C10: with a failed metadata fetch (every field treated scalar)
and one participant, no people-store request is issued and the reformatted
name is sent as a literal string array. -/
theorem C10_participants_frame_witness :
    (upload_meeting_to_airtable Resp.exn (fun _ => ⟨Resp.exn, Resp.exn, Resp.exn⟩)
      "Meetings" "People"
      ⟨none, some "123", some "Standup", none, none, none, some "u", none,
       some "sum", none, ["Doe, Jane"]⟩).2 = [] ∧
    List.lookup "Participants"
      (upload_meeting_to_airtable Resp.exn (fun _ => ⟨Resp.exn, Resp.exn, Resp.exn⟩)
        "Meetings" "People"
        ⟨none, some "123", some "Standup", none, none, none, some "u", none,
         some "sum", none, ["Doe, Jane"]⟩).1 = some (FieldVal.list ["Jane Doe"]) := by
  have h := C10_participants_frame.1 Resp.exn (fun _ => ⟨Resp.exn, Resp.exn, Resp.exn⟩)
    "Meetings" "People"
    ⟨none, some "123", some "Standup", none, none, none, some "u", none,
     some "sum", none, ["Doe, Jane"]⟩ (by decide)
  exact ⟨h.1, h.2.trans (by decide)⟩

end FathomSync
